import Mathlib

/-!
Verification of the document content normalization-and-patch engine of
`src/studio/backend/src/adapters/document_content_adapter.py`.

The Python values manipulated by the adapter are JSON-like: `None`, booleans,
numbers, strings, lists, and insertion-ordered dicts.  They are embedded as
the inductive type `Json` below, with dicts as association lists (a Python
dict has unique keys; insertion order is observable and is preserved by the
embedding).  `copy.deepcopy` is the identity under value semantics and is
dropped.  The MariaDB table `document_content` (document_id PK, content JSON)
is embedded as a map from identifiers to optionally-present trees; the
JSON serialization round-trip (`json.dumps`/`json.loads`) is the identity on
the embedded values and is dropped.
-/

namespace DipStudio

/-- A JSON-like Python value: `None`, `bool`, `int`, `str`, `list`, or an
insertion-ordered `dict` (association list with unique keys). -/
inductive Json where
  | null : Json
  | bool : Bool → Json
  | num : Int → Json
  | str : String → Json
  | arr : List Json → Json
  | obj : List (String × Json) → Json

/-- Python `d.get(k)` on an insertion-ordered dict: the value of the first
(and, for a real dict, only) binding of the key. -/
def lookupJson : List (String × Json) → String → Option Json
  | [], _ => none
  | (k, v) :: rest, key => if k = key then some v else lookupJson rest key

/-- Python `d[k] = v`: replace the value in place when the key exists,
append the binding at the end otherwise (dict insertion order). -/
def setKey : List (String × Json) → String → Json → List (String × Json)
  | [], key, val => [(key, val)]
  | (k, v) :: rest, key, val =>
      if k = key then (key, val) :: rest else (k, v) :: setKey rest key val

/-- Python `del d[k]`: drop the binding of the key. -/
def removeKey : List (String × Json) → String → List (String × Json)
  | [], _ => []
  | (k, v) :: rest, key => if k = key then rest else (k, v) :: removeKey rest key

/-- Source constant `_TIPTAP_NODES_WITH_CONTENT`: the node types that should
carry a `content` array. -/
def TIPTAP_NODES_WITH_CONTENT : List String :=
  ["doc", "paragraph", "heading", "bulletList", "orderedList", "listItem",
   "blockquote", "codeBlock", "codeBlockLeaf"]

/-- The default inline text leaf, the single element of the source constant
`_INLINE_DEFAULT_CONTENT`. -/
def inlineTextNode : Json :=
  Json.obj [("type", Json.str "text"), ("text", Json.str "")]

/-- Source constant `_INLINE_DEFAULT_CONTENT`. -/
def INLINE_DEFAULT_CONTENT : List Json := [inlineTextNode]

/-- Python `node_type = out.get("type") or ""`, as used by the two
membership tests.  A missing, falsy, or hashable non-string `type` value
matches neither membership set in the source, which this function renders as
the empty string.  A truthy unhashable `type` value (a non-empty list or
dict) instead makes the source's frozenset membership test raise
`TypeError`; that error path is not representable in this total function and
is modelled separately by `typeIsUnhashable` and
`ensure_tiptap_content_checked` below. -/
def nodeTypeOf (kvs : List (String × Json)) : String :=
  match lookupJson kvs "type" with
  | some (Json.str s) => s
  | _ => ""

/-- The `type` values on which the source's
`node_type in _TIPTAP_NODES_WITH_CONTENT` test raises `TypeError`:
`out.get("type") or ""` is truthy and unhashable, i.e. a non-empty list or a
non-empty dict (empty ones are falsy and already replaced by the empty
string). -/
def typeIsUnhashable (kvs : List (String × Json)) : Bool :=
  match lookupJson kvs "type" with
  | some (Json.arr xs) => !xs.isEmpty
  | some (Json.obj okvs) => !okvs.isEmpty
  | _ => false

/-- The content-synthesis step of `_ensure_tiptap_content`: when the node
type is in `_TIPTAP_NODES_WITH_CONTENT` and the dict has no `content` member,
one is added at the end — `_INLINE_DEFAULT_CONTENT` for paragraph/heading,
an empty list otherwise. -/
def synthContent (kvs : List (String × Json)) : List (String × Json) :=
  if nodeTypeOf kvs ∈ TIPTAP_NODES_WITH_CONTENT ∧ (lookupJson kvs "content").isNone then
    setKey kvs "content"
      (if nodeTypeOf kvs = "paragraph" ∨ nodeTypeOf kvs = "heading"
       then Json.arr INLINE_DEFAULT_CONTENT
       else Json.arr [])
  else kvs

mutual

/-- Source function `_ensure_tiptap_content` on the inputs where it
terminates.  The source synthesizes the missing `content` member first and
then maps the recursion over the (possibly just-synthesized) `content` list;
the recursion is the identity on both synthesized defaults (lemma
`ensureList_INLINE_DEFAULT_CONTENT` below), so recursing into the
pre-existing `content` first and synthesizing after is the same function.
Non-dict values (including `None`) are returned unchanged; other dict
members are not visited.  At a node whose `type` is a truthy unhashable
value the source raises `TypeError` instead of returning; this total
function gives such nodes the non-container treatment, and the raising
behavior is modelled by `ensure_tiptap_content_checked`, which agrees with
this function whenever it returns (`ensure_checked_sound`). -/
def ensure_tiptap_content : Json → Json
  | Json.obj kvs => Json.obj (synthContent (ensureEntries kvs))
  | j => j

/-- Per-entry step of `_ensure_tiptap_content` on a dict: only the value of
the `content` member is touched. -/
def ensureEntries : List (String × Json) → List (String × Json)
  | [] => []
  | (k, v) :: rest =>
      (k, if k = "content" then ensureContentValue v else v) :: ensureEntries rest

/-- The `content` value is recursed into only when it is a list
(`isinstance(out["content"], list)` in the source); anything else is kept
exactly as it is. -/
def ensureContentValue : Json → Json
  | Json.arr xs => Json.arr (ensureList xs)
  | v => v

/-- Elementwise recursion of `_ensure_tiptap_content` over a `content`
list. -/
def ensureList : List Json → List Json
  | [] => []
  | x :: xs => ensure_tiptap_content x :: ensureList xs

end

mutual

/-- Source function `_ensure_tiptap_content` with its error path made
explicit: `none` renders the `TypeError` raised by
`node_type in _TIPTAP_NODES_WITH_CONTENT` when the node's `type` value is
truthy and unhashable.  On `some` results it agrees with the total
`ensure_tiptap_content` (`ensure_checked_sound`). -/
def ensure_tiptap_content_checked : Json → Option Json
  | Json.obj kvs =>
      if typeIsUnhashable kvs then none
      else
        match ensureEntriesChecked kvs with
        | some kvs2 => some (Json.obj (synthContent kvs2))
        | none => none
  | j => some j

/-- Per-entry step of the checked normalizer: only the `content` value is
recursed into, and a failure below propagates. -/
def ensureEntriesChecked : List (String × Json) → Option (List (String × Json))
  | [] => some []
  | (k, v) :: rest =>
      match (if k = "content" then ensureContentValueChecked v else some v),
            ensureEntriesChecked rest with
      | some v2, some rest2 => some ((k, v2) :: rest2)
      | _, _ => none

/-- Checked counterpart of `ensureContentValue`. -/
def ensureContentValueChecked : Json → Option Json
  | Json.arr xs =>
      match ensureListChecked xs with
      | some xs2 => some (Json.arr xs2)
      | none => none
  | v => some v

/-- Checked counterpart of `ensureList`. -/
def ensureListChecked : List Json → Option (List Json)
  | [] => some []
  | x :: xs =>
      match ensure_tiptap_content_checked x, ensureListChecked xs with
      | some x2, some xs2 => some (x2 :: xs2)
      | _, _ => none

end

theorem sizeOf_lookupJson {kvs : List (String × Json)} {k : String} {v : Json}
    (h : lookupJson kvs k = some v) : sizeOf v < sizeOf kvs := by
  induction kvs with
  | nil => simp [lookupJson] at h
  | cons p rest ih =>
      obtain ⟨pk, pv⟩ := p
      simp only [lookupJson] at h
      split at h
      · injection h with h2
        subst h2
        simp only [List.cons.sizeOf_spec, Prod.mk.sizeOf_spec]
        omega
      · have := ih h
        simp only [List.cons.sizeOf_spec, Prod.mk.sizeOf_spec]
        omega

mutual

/-- Modelled from the spec: the value equality used by the `test` patch
operation (Python `==` on JSON values; dict comparison ignores key insertion
order).  The patch engine itself (`jsonpatch`) is a third-party dependency
of the adapter and is not under src/. -/
def jsonEq : Json → Json → Bool
  | Json.null, Json.null => true
  | Json.bool a, Json.bool b => a == b
  | Json.num a, Json.num b => a == b
  | Json.str a, Json.str b => a == b
  | Json.arr xs, Json.arr ys => jsonListEq xs ys
  | Json.obj kvs1, Json.obj kvs2 => objSubEq kvs1 kvs2 && objSubEq kvs2 kvs1
  | _, _ => false
termination_by a b => sizeOf a + sizeOf b
decreasing_by
  all_goals simp_wf
  all_goals omega

/-- Modelled from the spec: elementwise equality of JSON lists. -/
def jsonListEq : List Json → List Json → Bool
  | [], [] => true
  | x :: xs, y :: ys => jsonEq x y && jsonListEq xs ys
  | _, _ => false
termination_by xs ys => sizeOf xs + sizeOf ys
decreasing_by
  all_goals simp_wf
  all_goals omega

/-- Modelled from the spec: every binding of the first dict is present, with
an equal value, in the second. -/
def objSubEq : List (String × Json) → List (String × Json) → Bool
  | [], _ => true
  | (k, v) :: rest, other =>
      (match h : lookupJson other k with
       | some w => jsonEq v w
       | none => false) && objSubEq rest other
termination_by kvs other => sizeOf kvs + sizeOf other
decreasing_by
  all_goals simp_wf
  all_goals (have hw := sizeOf_lookupJson h; omega)

end

/-- Modelled from the spec: splitting of the tail of a JSON Pointer on `/`
(RFC 6901), accumulating the current segment in reverse. -/
def splitSegsAux : List Char → List Char → List (List Char)
  | [], acc => [acc.reverse]
  | c :: cs, acc =>
      if c = '/' then acc.reverse :: splitSegsAux cs []
      else splitSegsAux cs (c :: acc)

/-- Modelled from the spec: RFC 6901 unescaping of one pointer segment,
`~1` to `/` and then `~0` to `~`, scanning left to right. -/
def unescapeSeg : List Char → List Char
  | [] => []
  | c :: cs =>
      if c = '~' then
        match cs with
        | [] => [c]
        | d :: rest =>
            if d = '0' then '~' :: unescapeSeg rest
            else if d = '1' then '/' :: unescapeSeg rest
            else c :: unescapeSeg (d :: rest)
      else c :: unescapeSeg cs

/-- Modelled from the spec: parse an RFC 6901 JSON Pointer.  The empty string
is the root pointer; otherwise the pointer must start with `/`; anything else
is rejected (the patch operation fails). -/
def parsePointer (s : String) : Option (List String) :=
  match s.data with
  | [] => some []
  | c :: cs =>
      if c = '/' then
        some ((splitSegsAux cs []).map (fun seg => String.mk (unescapeSeg seg)))
      else none

/-- Decimal value of a digit list. -/
def digitsToNat : List Char → Nat → Nat
  | [], acc => acc
  | c :: cs, acc => digitsToNat cs (acc * 10 + (c.toNat - 48))

/-- Modelled from the spec: an array index segment per RFC 6901, a nonempty
digit string with no leading zero (except `0` itself). -/
def parseArrayIndex (s : String) : Option Nat :=
  match s.data with
  | [] => none
  | c :: cs =>
      if (c :: cs).all Char.isDigit ∧ (c = '0' → cs = []) then
        some (digitsToNat (c :: cs) 0)
      else none

/-- Element lookup in a list by position. -/
def getIdx : List Json → Nat → Option Json
  | [], _ => none
  | x :: _, 0 => some x
  | _ :: xs, i + 1 => getIdx xs i

/-- Insert before a position (position may equal the length: append). -/
def insertAt : List Json → Nat → Json → List Json
  | xs, 0, v => v :: xs
  | [], _ + 1, v => [v]
  | x :: xs, i + 1, v => x :: insertAt xs i v

/-- Replace the element at a position. -/
def setAt : List Json → Nat → Json → List Json
  | [], _, _ => []
  | _ :: xs, 0, v => v :: xs
  | x :: xs, i + 1, v => x :: setAt xs i v

/-- Remove the element at a position. -/
def eraseAt : List Json → Nat → List Json
  | [], _ => []
  | _ :: xs, 0 => xs
  | x :: xs, i + 1 => x :: eraseAt xs i

/-- Modelled from the spec: resolve a parsed JSON Pointer in a tree (used by
`copy`, `move` and `test`). -/
def getAt : Json → List String → Option Json
  | j, [] => some j
  | Json.obj kvs, s :: rest =>
      match lookupJson kvs s with
      | some v => getAt v rest
      | none => none
  | Json.arr xs, s :: rest =>
      match parseArrayIndex s with
      | some i =>
          match getIdx xs i with
          | some v => getAt v rest
          | none => none
      | none => none
  | _, _ :: _ => none

/-- Modelled from the spec: the `add` operation.  At the root it replaces the
whole document; in an object it sets or creates the member; in a sequence it
inserts before the index, appends for `-`, and fails past the end. -/
def addAt : Json → List String → Json → Option Json
  | _, [], v => some v
  | Json.obj kvs, [s], v => some (Json.obj (setKey kvs s v))
  | Json.arr xs, [s], v =>
      if s = "-" then some (Json.arr (xs ++ [v]))
      else
        match parseArrayIndex s with
        | some i => if i ≤ xs.length then some (Json.arr (insertAt xs i v)) else none
        | none => none
  | Json.obj kvs, s :: rest, v =>
      match lookupJson kvs s with
      | some child =>
          match addAt child rest v with
          | some c => some (Json.obj (setKey kvs s c))
          | none => none
      | none => none
  | Json.arr xs, s :: rest, v =>
      match parseArrayIndex s with
      | some i =>
          match getIdx xs i with
          | some child =>
              match addAt child rest v with
              | some c => some (Json.arr (setAt xs i c))
              | none => none
          | none => none
      | none => none
  | _, _ :: _, _ => none

/-- Modelled from the spec: the `remove` operation; fails when the target is
absent. -/
def removeAt : Json → List String → Option Json
  | _, [] => none
  | Json.obj kvs, [s] =>
      if (lookupJson kvs s).isSome then some (Json.obj (removeKey kvs s)) else none
  | Json.arr xs, [s] =>
      match parseArrayIndex s with
      | some i => if i < xs.length then some (Json.arr (eraseAt xs i)) else none
      | none => none
  | Json.obj kvs, s :: rest =>
      match lookupJson kvs s with
      | some child =>
          match removeAt child rest with
          | some c => some (Json.obj (setKey kvs s c))
          | none => none
      | none => none
  | Json.arr xs, s :: rest =>
      match parseArrayIndex s with
      | some i =>
          match getIdx xs i with
          | some child =>
              match removeAt child rest with
              | some c => some (Json.arr (setAt xs i c))
              | none => none
          | none => none
      | none => none
  | _, _ :: _ => none

/-- Modelled from the spec: the `replace` operation; the path must already
exist. -/
def replaceAt : Json → List String → Json → Option Json
  | _, [], v => some v
  | Json.obj kvs, s :: rest, v =>
      match lookupJson kvs s with
      | some child =>
          match replaceAt child rest v with
          | some c => some (Json.obj (setKey kvs s c))
          | none => none
      | none => none
  | Json.arr xs, s :: rest, v =>
      match parseArrayIndex s with
      | some i =>
          match getIdx xs i with
          | some child =>
              match replaceAt child rest v with
              | some c => some (Json.arr (setAt xs i c))
              | none => none
          | none => none
      | none => none
  | _, _ :: _, _ => none

/-- Modelled from the spec: one RFC6902-style patch operation
(add/remove/replace/move/copy/test) with its JSON Pointer path(s). -/
inductive PatchOp where
  | add (path : String) (value : Json)
  | remove (path : String)
  | replace (path : String) (value : Json)
  | move (src : String) (path : String)
  | copy (src : String) (path : String)
  | test (path : String) (value : Json)

/-- Modelled from the spec: apply one patch operation, failing on a malformed
pointer, a missing path, an out-of-range index, or a `test` mismatch. -/
def apply_op (doc : Json) : PatchOp → Option Json
  | PatchOp.add p v =>
      match parsePointer p with
      | some segs => addAt doc segs v
      | none => none
  | PatchOp.remove p =>
      match parsePointer p with
      | some segs => removeAt doc segs
      | none => none
  | PatchOp.replace p v =>
      match parsePointer p with
      | some segs => replaceAt doc segs v
      | none => none
  | PatchOp.move s p =>
      match parsePointer s, parsePointer p with
      | some ss, some ps =>
          match getAt doc ss with
          | some v =>
              match removeAt doc ss with
              | some doc2 => addAt doc2 ps v
              | none => none
          | none => none
      | _, _ => none
  | PatchOp.copy s p =>
      match parsePointer s, parsePointer p with
      | some ss, some ps =>
          match getAt doc ss with
          | some v => addAt doc ps v
          | none => none
      | _, _ => none
  | PatchOp.test p v =>
      match parsePointer p with
      | some segs =>
          match getAt doc segs with
          | some w => if jsonEq w v then some doc else none
          | none => none
      | none => none

/-- Modelled from the spec: `jsonpatch.apply_patch` — the operations are
applied strictly in sequence and the first failure aborts the whole batch
with no partial result. -/
def apply_patch : Json → List PatchOp → Option Json
  | doc, [] => some doc
  | doc, op :: rest =>
      match apply_op doc op with
      | some doc2 => apply_patch doc2 rest
      | none => none

/-- The `document_content` table keyed by `document_id`: at most one JSON
tree per identifier. -/
abbrev Store : Type := Int → Option Json

/-- Source method `DocumentContentAdapter.get_content`: the persisted tree,
or an empty dict when the row is absent. -/
def get_content (st : Store) (document_id : Int) : Json :=
  match st document_id with
  | none => Json.obj []
  | some j => j

/-- Source method `DocumentContentAdapter.set_content`: upsert of the whole
tree (a `None` payload is stored as an empty dict). -/
def set_content (st : Store) (document_id : Int) (content : Json) : Store :=
  let payload := match content with
    | Json.null => Json.obj []
    | c => c
  fun i => if i = document_id then some payload else st i

/-- Source method `DocumentContentAdapter.delete_content`: remove the row;
removing an absent row changes nothing. -/
def delete_content (st : Store) (document_id : Int) : Store :=
  fun i => if i = document_id then none else st i

/-- Python truthiness of a JSON-like value (the `if current` guard in
`patch_content`). -/
def pyTruthy : Json → Bool
  | Json.null => false
  | Json.bool b => b
  | Json.num n => n != 0
  | Json.str s => s != ""
  | Json.arr xs => !xs.isEmpty
  | Json.obj kvs => !kvs.isEmpty

/-- The first two lines of `patch_content`: load the current tree and
normalize it (`_ensure_tiptap_content(current) if current else {}`). -/
def normalized_current (st : Store) (document_id : Int) : Json :=
  if pyTruthy (get_content st document_id) then
    ensure_tiptap_content (get_content st document_id)
  else Json.obj []

/-- Python `isinstance(x, dict)`. -/
def isJsonObj : Json → Bool
  | Json.obj _ => true
  | _ => false

/-- Source method `DocumentContentAdapter.patch_content`: read, normalize,
apply the patch, validate that the result is an object, persist, return.
A raise on the failure paths leaves the table untouched, which the embedding
renders by returning the incoming store unchanged next to the error. -/
def patch_content (st : Store) (document_id : Int) (patch_operations : List PatchOp) :
    Store × Except String Json :=
  match apply_patch (normalized_current st document_id) patch_operations with
  | none => (st, Except.error "JSON Patch apply failed")
  | some new_content =>
      if isJsonObj new_content then
        (set_content st document_id new_content, Except.ok new_content)
      else
        (st, Except.error "patch result must be a JSON object")

/-- The first two lines of `patch_content` with normalization's error path
made explicit: `none` renders the `TypeError` escaping
`_ensure_tiptap_content`. -/
def normalized_current_checked (st : Store) (document_id : Int) : Option Json :=
  if pyTruthy (get_content st document_id) then
    ensure_tiptap_content_checked (get_content st document_id)
  else some (Json.obj [])

/-- Source method `DocumentContentAdapter.patch_content` with normalization's
error path made explicit: a `TypeError` raised inside
`_ensure_tiptap_content` is not caught by the `except JsonPatchException`
clause, so it propagates before `set_content` is invoked, leaving the table
untouched. -/
def patch_content_checked (st : Store) (document_id : Int)
    (patch_operations : List PatchOp) : Store × Except String Json :=
  match normalized_current_checked st document_id with
  | none => (st, Except.error "TypeError: unhashable type")
  | some current =>
      match apply_patch current patch_operations with
      | none => (st, Except.error "JSON Patch apply failed")
      | some new_content =>
          if isJsonObj new_content then
            (set_content st document_id new_content, Except.ok new_content)
          else
            (st, Except.error "patch result must be a JSON object")

theorem lookup_setKey_self (kvs : List (String × Json)) (k : String) (v : Json) :
    lookupJson (setKey kvs k v) k = some v := by
  induction kvs with
  | nil => simp [setKey, lookupJson]
  | cons p rest ih =>
      obtain ⟨pk, pv⟩ := p
      by_cases hk : pk = k
      · simp [setKey, hk, lookupJson]
      · simp [setKey, hk, lookupJson, ih]

theorem lookup_setKey_ne (kvs : List (String × Json)) (k k2 : String) (v : Json)
    (h : k2 ≠ k) : lookupJson (setKey kvs k v) k2 = lookupJson kvs k2 := by
  induction kvs with
  | nil => simp [setKey, lookupJson, Ne.symm h]
  | cons p rest ih =>
      obtain ⟨pk, pv⟩ := p
      by_cases hk : pk = k
      · subst hk
        simp [setKey, lookupJson, Ne.symm h]
      · simp only [setKey, if_neg hk, lookupJson]
        split
        · rfl
        · exact ih

theorem setKey_of_lookup_none (kvs : List (String × Json)) (k : String) (v : Json)
    (h : lookupJson kvs k = none) : setKey kvs k v = kvs ++ [(k, v)] := by
  induction kvs with
  | nil => simp [setKey]
  | cons p rest ih =>
      obtain ⟨pk, pv⟩ := p
      simp only [lookupJson] at h
      split at h
      · exact absurd h (by simp)
      · rename_i hpk
        simp [setKey, hpk, ih h]

theorem ensureEntries_append (l1 l2 : List (String × Json)) :
    ensureEntries (l1 ++ l2) = ensureEntries l1 ++ ensureEntries l2 := by
  induction l1 with
  | nil => simp [ensureEntries]
  | cons p rest ih =>
      obtain ⟨pk, pv⟩ := p
      simp [ensureEntries, ih]

theorem ensureEntries_map_fst (kvs : List (String × Json)) :
    (ensureEntries kvs).map Prod.fst = kvs.map Prod.fst := by
  induction kvs with
  | nil => rfl
  | cons p rest ih =>
      obtain ⟨pk, pv⟩ := p
      simp [ensureEntries, ih]

theorem lookup_ensureEntries_content (kvs : List (String × Json)) :
    lookupJson (ensureEntries kvs) "content"
      = (lookupJson kvs "content").map ensureContentValue := by
  induction kvs with
  | nil => rfl
  | cons p rest ih =>
      obtain ⟨pk, pv⟩ := p
      by_cases hk : pk = "content"
      · subst hk
        simp [ensureEntries, lookupJson]
      · simp [ensureEntries, lookupJson, hk, ih]

theorem lookup_ensureEntries_ne (kvs : List (String × Json)) (k : String)
    (h : k ≠ "content") : lookupJson (ensureEntries kvs) k = lookupJson kvs k := by
  induction kvs with
  | nil => rfl
  | cons p rest ih =>
      obtain ⟨pk, pv⟩ := p
      by_cases hk : pk = k
      · subst hk
        simp [ensureEntries, lookupJson, h]
      · simp [ensureEntries, lookupJson, hk, ih]

theorem nodeTypeOf_ensureEntries (kvs : List (String × Json)) :
    nodeTypeOf (ensureEntries kvs) = nodeTypeOf kvs := by
  unfold nodeTypeOf
  rw [lookup_ensureEntries_ne kvs "type" (by decide)]

theorem ensureList_eq_map (xs : List Json) :
    ensureList xs = xs.map ensure_tiptap_content := by
  induction xs with
  | nil => rfl
  | cons x rest ih => simp [ensureList, ih]

theorem ensureList_INLINE_DEFAULT_CONTENT :
    ensureList INLINE_DEFAULT_CONTENT = INLINE_DEFAULT_CONTENT := rfl

theorem ensure_obj (kvs : List (String × Json)) :
    ensure_tiptap_content (Json.obj kvs) = Json.obj (synthContent (ensureEntries kvs)) := rfl

theorem ensureEntries_of_no_content (kvs : List (String × Json))
    (h : lookupJson kvs "content" = none) : ensureEntries kvs = kvs := by
  induction kvs with
  | nil => rfl
  | cons p rest ih =>
      obtain ⟨pk, pv⟩ := p
      simp only [lookupJson] at h
      split at h
      · exact absurd h (by simp)
      · rename_i hpk
        simp [ensureEntries, hpk, ih h]

theorem synthContent_of_content_present (kvs : List (String × Json))
    (h : (lookupJson kvs "content").isSome) : synthContent kvs = kvs := by
  unfold synthContent
  rw [if_neg]
  intro hc
  rw [Option.isNone_iff_eq_none.mp hc.2] at h
  simp at h

theorem synthContent_of_not_container (kvs : List (String × Json))
    (h : nodeTypeOf kvs ∉ TIPTAP_NODES_WITH_CONTENT) : synthContent kvs = kvs := by
  unfold synthContent
  rw [if_neg]
  intro hc
  exact h hc.1

theorem synthContent_of_synth (kvs : List (String × Json))
    (h1 : nodeTypeOf kvs ∈ TIPTAP_NODES_WITH_CONTENT)
    (h2 : lookupJson kvs "content" = none) :
    synthContent kvs
      = kvs ++ [("content",
          if nodeTypeOf kvs = "paragraph" ∨ nodeTypeOf kvs = "heading"
          then Json.arr INLINE_DEFAULT_CONTENT
          else Json.arr [])] := by
  unfold synthContent
  rw [if_pos ⟨h1, by simp [h2]⟩, setKey_of_lookup_none kvs "content" _ h2]

theorem lookup_synthContent_ne (kvs : List (String × Json)) (k : String)
    (h : k ≠ "content") : lookupJson (synthContent kvs) k = lookupJson kvs k := by
  unfold synthContent
  split
  · rw [lookup_setKey_ne kvs "content" k _ h]
  · rfl

theorem nodeTypeOf_synthContent (kvs : List (String × Json)) :
    nodeTypeOf (synthContent kvs) = nodeTypeOf kvs := by
  unfold nodeTypeOf
  rw [lookup_synthContent_ne kvs "type" (by decide)]

theorem ensureContentValue_synthDefault (t : String) :
    ensureContentValue
        (if t = "paragraph" ∨ t = "heading"
         then Json.arr INLINE_DEFAULT_CONTENT
         else Json.arr [])
      = (if t = "paragraph" ∨ t = "heading"
         then Json.arr INLINE_DEFAULT_CONTENT
         else Json.arr []) := by
  by_cases h : t = "paragraph" ∨ t = "heading"
  · rw [if_pos h]
    rfl
  · rw [if_neg h]
    rfl

mutual

theorem ensure_idem :
    (j : Json) → ensure_tiptap_content (ensure_tiptap_content j) = ensure_tiptap_content j
  | Json.null => rfl
  | Json.bool _ => rfl
  | Json.num _ => rfl
  | Json.str _ => rfl
  | Json.arr _ => rfl
  | Json.obj kvs => by
      rw [ensure_obj kvs, ensure_obj]
      have hE : ensureEntries (ensureEntries kvs) = ensureEntries kvs := entries_idem kvs
      by_cases hc : nodeTypeOf (ensureEntries kvs) ∈ TIPTAP_NODES_WITH_CONTENT
          ∧ (lookupJson (ensureEntries kvs) "content").isNone
      · obtain ⟨hmem, hnone⟩ := hc
        have hnone2 : lookupJson (ensureEntries kvs) "content" = none :=
          Option.isNone_iff_eq_none.mp hnone
        have hsynth := synthContent_of_synth _ hmem hnone2
        rw [hsynth, ensureEntries_append, hE]
        have hsing : ensureEntries [("content",
            if nodeTypeOf (ensureEntries kvs) = "paragraph"
                ∨ nodeTypeOf (ensureEntries kvs) = "heading"
            then Json.arr INLINE_DEFAULT_CONTENT else Json.arr [])]
            = [("content",
            if nodeTypeOf (ensureEntries kvs) = "paragraph"
                ∨ nodeTypeOf (ensureEntries kvs) = "heading"
            then Json.arr INLINE_DEFAULT_CONTENT else Json.arr [])] := by
          simp [ensureEntries, ensureContentValue_synthDefault]
        rw [hsing]
        apply congrArg
        apply synthContent_of_content_present
        rw [← setKey_of_lookup_none _ _ _ hnone2, lookup_setKey_self]
        rfl
      · have hno : synthContent (ensureEntries kvs) = ensureEntries kvs := by
          unfold synthContent
          rw [if_neg hc]
        rw [hno, hE, hno]
termination_by j => sizeOf j

theorem entries_idem :
    (kvs : List (String × Json)) → ensureEntries (ensureEntries kvs) = ensureEntries kvs
  | [] => rfl
  | (k, v) :: rest => by
      by_cases hk : k = "content"
      · subst hk
        simp [ensureEntries, contentValue_idem v, entries_idem rest]
      · simp [ensureEntries, hk, entries_idem rest]
termination_by kvs => sizeOf kvs

theorem contentValue_idem :
    (v : Json) → ensureContentValue (ensureContentValue v) = ensureContentValue v
  | Json.null => rfl
  | Json.bool _ => rfl
  | Json.num _ => rfl
  | Json.str _ => rfl
  | Json.obj _ => rfl
  | Json.arr xs => by simp [ensureContentValue, list_idem xs]
termination_by v => sizeOf v

theorem list_idem :
    (xs : List Json) → ensureList (ensureList xs) = ensureList xs
  | [] => rfl
  | x :: rest => by simp [ensureList, ensure_idem x, list_idem rest]
termination_by xs => sizeOf xs

end

mutual

theorem ensure_checked_sound :
    (j : Json) → (r : Json) → ensure_tiptap_content_checked j = some r →
      r = ensure_tiptap_content j
  | Json.null, r, h => by
      injection h with h2
      rw [← h2]
      rfl
  | Json.bool b, r, h => by
      injection h with h2
      rw [← h2]
      rfl
  | Json.num n2, r, h => by
      injection h with h2
      rw [← h2]
      rfl
  | Json.str s, r, h => by
      injection h with h2
      rw [← h2]
      rfl
  | Json.arr xs, r, h => by
      injection h with h2
      rw [← h2]
      rfl
  | Json.obj kvs, r, h => by
      unfold ensure_tiptap_content_checked at h
      split at h
      · exact Option.noConfusion h
      · cases he : ensureEntriesChecked kvs with
        | none =>
            rw [he] at h
            exact Option.noConfusion h
        | some kvs2 =>
            rw [he] at h
            injection h with h2
            rw [← h2, ensure_obj, entries_checked_sound kvs kvs2 he]
termination_by j r h => sizeOf j

theorem entries_checked_sound :
    (kvs : List (String × Json)) → (kvs2 : List (String × Json)) →
      ensureEntriesChecked kvs = some kvs2 → kvs2 = ensureEntries kvs
  | [], kvs2, h => by
      injection h with h2
      rw [← h2]
      rfl
  | (k, v) :: rest, kvs2, h => by
      unfold ensureEntriesChecked at h
      by_cases hk : k = "content"
      · rw [if_pos hk] at h
        cases hv : ensureContentValueChecked v with
        | none =>
            rw [hv] at h
            exact Option.noConfusion h
        | some v2 =>
            rw [hv] at h
            cases hr : ensureEntriesChecked rest with
            | none =>
                rw [hr] at h
                exact Option.noConfusion h
            | some rest2 =>
                rw [hr] at h
                injection h with h2
                rw [← h2]
                unfold ensureEntries
                rw [if_pos hk, content_checked_sound v v2 hv,
                  entries_checked_sound rest rest2 hr]
      · rw [if_neg hk] at h
        cases hr : ensureEntriesChecked rest with
        | none =>
            rw [hr] at h
            exact Option.noConfusion h
        | some rest2 =>
            rw [hr] at h
            injection h with h2
            rw [← h2]
            unfold ensureEntries
            rw [if_neg hk, entries_checked_sound rest rest2 hr]
termination_by kvs kvs2 h => sizeOf kvs

theorem content_checked_sound :
    (v : Json) → (v2 : Json) → ensureContentValueChecked v = some v2 →
      v2 = ensureContentValue v
  | Json.arr xs, v2, h => by
      unfold ensureContentValueChecked at h
      cases hl : ensureListChecked xs with
      | none =>
          rw [hl] at h
          exact Option.noConfusion h
      | some xs2 =>
          rw [hl] at h
          injection h with h2
          rw [← h2]
          unfold ensureContentValue
          rw [list_checked_sound xs xs2 hl]
  | Json.null, v2, h => by
      injection h with h2
      rw [← h2]
      rfl
  | Json.bool b, v2, h => by
      injection h with h2
      rw [← h2]
      rfl
  | Json.num n2, v2, h => by
      injection h with h2
      rw [← h2]
      rfl
  | Json.str s, v2, h => by
      injection h with h2
      rw [← h2]
      rfl
  | Json.obj okvs, v2, h => by
      injection h with h2
      rw [← h2]
      rfl
termination_by v v2 h => sizeOf v

theorem list_checked_sound :
    (xs : List Json) → (xs2 : List Json) → ensureListChecked xs = some xs2 →
      xs2 = ensureList xs
  | [], xs2, h => by
      injection h with h2
      rw [← h2]
      rfl
  | x :: rest, xs2, h => by
      unfold ensureListChecked at h
      cases hx : ensure_tiptap_content_checked x with
      | none =>
          rw [hx] at h
          exact Option.noConfusion h
      | some x2 =>
          rw [hx] at h
          cases hr : ensureListChecked rest with
          | none =>
              rw [hr] at h
              exact Option.noConfusion h
          | some rest2 =>
              rw [hr] at h
              injection h with h2
              rw [← h2]
              unfold ensureList
              rw [ensure_checked_sound x x2 hx, list_checked_sound rest rest2 hr]
termination_by xs xs2 h => sizeOf xs

end

/-- Node-reachability in a document tree: the tree itself and, transitively,
every element of the `content` list of a reachable dict node.  Members other
than `content` (attrs, marks, ...) are opaque attributes, not children. -/
inductive SubNode (t : Json) : Json → Prop where
  | refl : SubNode t t
  | step {kvs : List (String × Json)} {xs : List Json} {c : Json} :
      SubNode t (Json.obj kvs) → lookupJson kvs "content" = some (Json.arr xs) →
      c ∈ xs → SubNode t c

theorem ensureListChecked_none {xs : List Json} {c : Json} (hc : c ∈ xs)
    (h : ensure_tiptap_content_checked c = none) : ensureListChecked xs = none := by
  induction xs with
  | nil => cases hc
  | cons x rest ih =>
      cases hc with
      | head =>
          unfold ensureListChecked
          rw [h]
      | tail _ hc2 =>
          unfold ensureListChecked
          rw [ih hc2]
          cases ensure_tiptap_content_checked x <;> rfl

theorem ensureEntriesChecked_none {kvs : List (String × Json)} {xs : List Json}
    (hlook : lookupJson kvs "content" = some (Json.arr xs))
    (h : ensureListChecked xs = none) : ensureEntriesChecked kvs = none := by
  induction kvs with
  | nil => simp [lookupJson] at hlook
  | cons p rest ih =>
      obtain ⟨pk, pv⟩ := p
      simp only [lookupJson] at hlook
      split at hlook
      · rename_i hpk
        injection hlook with hv
        subst hpk
        subst hv
        unfold ensureEntriesChecked
        simp [ensureContentValueChecked, h]
      · rename_i hpk
        unfold ensureEntriesChecked
        rw [ih hlook]
        cases (if pk = "content" then ensureContentValueChecked pv else some pv) <;> rfl

theorem checked_none_of_unhashable {kvs : List (String × Json)}
    (hu : typeIsUnhashable kvs = true) :
    ensure_tiptap_content_checked (Json.obj kvs) = none := by
  unfold ensure_tiptap_content_checked
  simp [hu]

theorem checked_none_of_subnode_none {t n : Json} (h : SubNode t n)
    (hn : ensure_tiptap_content_checked n = none) :
    ensure_tiptap_content_checked t = none := by
  induction h with
  | refl => exact hn
  | step h1 hlook hmem ih =>
      apply ih
      unfold ensure_tiptap_content_checked
      split
      · rfl
      · rw [ensureEntriesChecked_none hlook (ensureListChecked_none hmem hn)]

theorem eq_obj_of_ensure {m : Json} {kvs : List (String × Json)}
    (h : Json.obj kvs = ensure_tiptap_content m) :
    ∃ kvs0, m = Json.obj kvs0 ∧ kvs = synthContent (ensureEntries kvs0) := by
  cases m with
  | obj kvs0 =>
      refine ⟨kvs0, rfl, ?_⟩
      rw [ensure_obj] at h
      injection h
  | null => exact Json.noConfusion h
  | bool b => exact Json.noConfusion h
  | num n2 => exact Json.noConfusion h
  | str s => exact Json.noConfusion h
  | arr xs => exact Json.noConfusion h

theorem subNode_ensure {t n : Json}
    (h : SubNode (ensure_tiptap_content t) n) :
    (∃ m, SubNode t m ∧ n = ensure_tiptap_content m) ∨ n = inlineTextNode := by
  induction h with
  | refl => exact Or.inl ⟨t, SubNode.refl, rfl⟩
  | step h1 hlook hmem ih =>
      rename_i kvs xs c
      cases ih with
      | inr hEq =>
          exfalso
          injection hEq with hkvs
          rw [hkvs] at hlook
          simp [lookupJson] at hlook
      | inl hex =>
          obtain ⟨m, hm, hEq⟩ := hex
          obtain ⟨kvs0, hm0, hkvs⟩ := eq_obj_of_ensure hEq
          subst hm0
          by_cases hc : nodeTypeOf (ensureEntries kvs0) ∈ TIPTAP_NODES_WITH_CONTENT
              ∧ (lookupJson (ensureEntries kvs0) "content").isNone
          · have hkvs2 : kvs = setKey (ensureEntries kvs0) "content"
                (if nodeTypeOf (ensureEntries kvs0) = "paragraph"
                    ∨ nodeTypeOf (ensureEntries kvs0) = "heading"
                 then Json.arr INLINE_DEFAULT_CONTENT else Json.arr []) := by
              rw [hkvs]
              unfold synthContent
              rw [if_pos hc]
            rw [hkvs2, lookup_setKey_self] at hlook
            by_cases hp : nodeTypeOf (ensureEntries kvs0) = "paragraph"
                ∨ nodeTypeOf (ensureEntries kvs0) = "heading"
            · rw [if_pos hp] at hlook
              injection hlook with hl2
              injection hl2 with hl3
              rw [← hl3] at hmem
              simp only [INLINE_DEFAULT_CONTENT, List.mem_singleton] at hmem
              exact Or.inr hmem
            · rw [if_neg hp] at hlook
              injection hlook with hl2
              injection hl2 with hl3
              rw [← hl3] at hmem
              simp at hmem
          · have hkvs2 : kvs = ensureEntries kvs0 := by
              rw [hkvs]
              unfold synthContent
              rw [if_neg hc]
            rw [hkvs2, lookup_ensureEntries_content] at hlook
            cases hv0 : lookupJson kvs0 "content" with
            | none =>
                rw [hv0] at hlook
                simp at hlook
            | some v0 =>
                rw [hv0] at hlook
                simp only [Option.map_some'] at hlook
                injection hlook with hl2
                cases v0 with
                | arr xs0 =>
                    have hl3 : Json.arr (ensureList xs0) = Json.arr xs := hl2
                    injection hl3 with hl4
                    rw [← hl4, ensureList_eq_map] at hmem
                    obtain ⟨x0, hx0, hcx⟩ := List.mem_map.mp hmem
                    exact Or.inl ⟨x0, SubNode.step hm hv0 hx0, hcx.symm⟩
                | null => exact absurd hl2 (by simp [ensureContentValue])
                | bool b => exact absurd hl2 (by simp [ensureContentValue])
                | num n2 => exact absurd hl2 (by simp [ensureContentValue])
                | str s => exact absurd hl2 (by simp [ensureContentValue])
                | obj kvs2 => exact absurd hl2 (by simp [ensureContentValue])

theorem ensure_container_has_content {t : Json} {kvs : List (String × Json)}
    (h : SubNode (ensure_tiptap_content t) (Json.obj kvs))
    (hmem : nodeTypeOf kvs ∈ TIPTAP_NODES_WITH_CONTENT) :
    (lookupJson kvs "content").isSome = true := by
  cases subNode_ensure h with
  | inr hEq =>
      exfalso
      injection hEq with hkvs
      rw [hkvs] at hmem
      simp [nodeTypeOf, lookupJson, TIPTAP_NODES_WITH_CONTENT] at hmem
  | inl hex =>
      obtain ⟨m, _, hEq⟩ := hex
      obtain ⟨kvs0, _, hkvs⟩ := eq_obj_of_ensure hEq
      subst hkvs
      by_cases hc : nodeTypeOf (ensureEntries kvs0) ∈ TIPTAP_NODES_WITH_CONTENT
          ∧ (lookupJson (ensureEntries kvs0) "content").isNone
      · unfold synthContent
        rw [if_pos hc, lookup_setKey_self]
        rfl
      · have heq2 : synthContent (ensureEntries kvs0) = ensureEntries kvs0 := by
          unfold synthContent
          rw [if_neg hc]
        rw [heq2] at hmem ⊢
        cases hl : lookupJson (ensureEntries kvs0) "content" with
        | none => exact absurd ⟨hmem, by simp [hl]⟩ hc
        | some v => simp [hl]

theorem ensure_synthesizes_default (kvs : List (String × Json))
    (h1 : nodeTypeOf kvs ∈ TIPTAP_NODES_WITH_CONTENT)
    (h2 : lookupJson kvs "content" = none) :
    ensure_tiptap_content (Json.obj kvs)
      = Json.obj (kvs ++ [("content",
          if nodeTypeOf kvs = "paragraph" ∨ nodeTypeOf kvs = "heading"
          then Json.arr INLINE_DEFAULT_CONTENT
          else Json.arr [])]) := by
  rw [ensure_obj, ensureEntries_of_no_content kvs h2, synthContent_of_synth kvs h1 h2]

theorem ensureContentValue_of_not_arr {v : Json} (h : ∀ xs, v ≠ Json.arr xs) :
    ensureContentValue v = v := by
  cases v with
  | arr xs => exact absurd rfl (h xs)
  | null => rfl
  | bool b => rfl
  | num n2 => rfl
  | str s => rfl
  | obj kvs => rfl

theorem synth_cond_transfer (kvs : List (String × Json)) :
    (nodeTypeOf (ensureEntries kvs) ∈ TIPTAP_NODES_WITH_CONTENT
      ∧ (lookupJson (ensureEntries kvs) "content").isNone)
    ↔ (nodeTypeOf kvs ∈ TIPTAP_NODES_WITH_CONTENT
      ∧ (lookupJson kvs "content").isNone) := by
  rw [nodeTypeOf_ensureEntries, lookup_ensureEntries_content]
  cases lookupJson kvs "content" <;> simp

/-- The empty table: no document has any stored content. -/
def emptyStore : Store := fun _ => none

/-- C1: atomicity of patch — whenever some operation of the sequence fails to
apply (the patch engine returns no result), `patch_content` reports an error
and the persisted table is exactly the incoming one: `set_content` is never
invoked on the failure path. -/
theorem c1_patch_atomicity (st : Store) (document_id : Int) (ops : List PatchOp)
    (h : apply_patch (normalized_current st document_id) ops = none) :
    (patch_content st document_id ops).1 = st
      ∧ ∃ e, (patch_content st document_id ops).2 = Except.error e := by
  have hp : patch_content st document_id ops
      = (st, Except.error "JSON Patch apply failed") := by
    unfold patch_content
    rw [h]
  rw [hp]
  exact ⟨rfl, "JSON Patch apply failed", rfl⟩

theorem c1_witness :
    (patch_content emptyStore 1 [PatchOp.remove "/x"]).1 = emptyStore
      ∧ ∃ e, (patch_content emptyStore 1 [PatchOp.remove "/x"]).2 = Except.error e :=
  c1_patch_atomicity emptyStore 1 [PatchOp.remove "/x"] rfl

/-- C2: container completion — every reachable node of a normalized tree
whose type is in the container set has a `content` member; and a container
node that had no `content` member gets exactly
`[{type: "text", text: ""}]` for paragraph/heading and the empty sequence
otherwise, appended as its last member. -/
theorem c2_container_completion :
    (∀ t kvs, SubNode (ensure_tiptap_content t) (Json.obj kvs) →
        nodeTypeOf kvs ∈ TIPTAP_NODES_WITH_CONTENT →
        (lookupJson kvs "content").isSome = true)
  ∧ (∀ kvs, nodeTypeOf kvs ∈ TIPTAP_NODES_WITH_CONTENT →
        lookupJson kvs "content" = none →
        ensure_tiptap_content (Json.obj kvs)
          = Json.obj (kvs ++ [("content",
              if nodeTypeOf kvs = "paragraph" ∨ nodeTypeOf kvs = "heading"
              then Json.arr INLINE_DEFAULT_CONTENT
              else Json.arr [])])) :=
  ⟨fun _ _ h hmem => ensure_container_has_content h hmem,
   fun kvs h1 h2 => ensure_synthesizes_default kvs h1 h2⟩

theorem c2_witness :
    (lookupJson [("type", Json.str "doc"), ("content", Json.arr [])] "content").isSome = true
  ∧ ensure_tiptap_content (Json.obj [("type", Json.str "paragraph")])
      = Json.obj [("type", Json.str "paragraph"),
          ("content",
            if nodeTypeOf [("type", Json.str "paragraph")] = "paragraph"
               ∨ nodeTypeOf [("type", Json.str "paragraph")] = "heading"
            then Json.arr INLINE_DEFAULT_CONTENT
            else Json.arr [])] := by
  constructor
  · exact c2_container_completion.1 (Json.obj [("type", Json.str "doc")]) _
      SubNode.refl (by decide)
  · exact c2_container_completion.2 [("type", Json.str "paragraph")] (by decide) rfl

/-- C3: idempotence of normalization — `normalize(normalize(t))` equals
`normalize(t)` for every JSON-like value `t`. -/
theorem c3_normalize_idempotent (t : Json) :
    ensure_tiptap_content (ensure_tiptap_content t) = ensure_tiptap_content t :=
  ensure_idem t

/-- C4: object-rootedness — when the patch application succeeds but its
result is not a dict, `patch_content` reports the invalid-result error and
the persisted table is exactly the incoming one. -/
theorem c4_object_rootedness (st : Store) (document_id : Int) (ops : List PatchOp)
    (j : Json)
    (h : apply_patch (normalized_current st document_id) ops = some j)
    (hobj : isJsonObj j = false) :
    (patch_content st document_id ops).1 = st
      ∧ (patch_content st document_id ops).2
          = Except.error "patch result must be a JSON object" := by
  have hp : patch_content st document_id ops
      = (st, Except.error "patch result must be a JSON object") := by
    unfold patch_content
    rw [h]
    simp [hobj]
  rw [hp]
  exact ⟨rfl, rfl⟩

theorem c4_witness :
    (patch_content emptyStore 2
        [PatchOp.replace "" (Json.arr [Json.str "not", Json.str "an", Json.str "object"])]).1
      = emptyStore
  ∧ (patch_content emptyStore 2
        [PatchOp.replace "" (Json.arr [Json.str "not", Json.str "an", Json.str "object"])]).2
      = Except.error "patch result must be a JSON object" :=
  c4_object_rootedness emptyStore 2
    [PatchOp.replace "" (Json.arr [Json.str "not", Json.str "an", Json.str "object"])]
    (Json.arr [Json.str "not", Json.str "an", Json.str "object"]) rfl rfl

/-- A store whose document 1 is the dict `{"type": ["x"]}` — reachable via
`set_content(1, {"type": ["x"]})` — on which normalization raises
`TypeError`. -/
def badTypeStore : Store :=
  fun i => if i = 1 then some (Json.obj [("type", Json.arr [Json.str "x"])]) else none

/-- C5 counterexample: at the reachable state where document 1 holds
`{"type": ["x"]}`, `patch_content(1, [])` does not succeed — the `TypeError`
raised inside `_ensure_tiptap_content` (the frozenset membership test on an
unhashable value) propagates, so the claim that the empty patch succeeds for
every document identifier is false. -/
theorem c5_counterexample :
    (patch_content_checked badTypeStore 1 []).2
      = Except.error "TypeError: unhashable type" := rfl

/-- C5 amended: when the stored value for the identifier is absent or a dict
(the states reachable through the adapter) and normalization of the loaded
tree does not raise, `patch_content` with no operations succeeds and returns
exactly the normalization of `get_content` — the empty object when no
document is stored. -/
theorem c5_empty_patch_roundtrip_amended (st : Store) (document_id : Int)
    (h : st document_id = none ∨ ∃ kvs, st document_id = some (Json.obj kvs))
    (h2 : ensure_tiptap_content_checked (get_content st document_id)
        = some (ensure_tiptap_content (get_content st document_id))) :
    (patch_content_checked st document_id []).2
      = Except.ok (ensure_tiptap_content (get_content st document_id)) := by
  cases h with
  | inl h0 =>
      unfold patch_content_checked normalized_current_checked get_content
      rw [h0]
      rfl
  | inr hex =>
      obtain ⟨kvs, h0⟩ := hex
      unfold get_content at h2
      rw [h0] at h2
      unfold patch_content_checked normalized_current_checked get_content
      rw [h0]
      cases kvs with
      | nil => rfl
      | cons p rest =>
          rw [ensure_obj] at h2 ⊢
          simp [pyTruthy, h2, apply_patch, isJsonObj]

theorem c5_witness_amended :
    (patch_content_checked emptyStore 3 []).2
      = Except.ok (ensure_tiptap_content (get_content emptyStore 3)) :=
  c5_empty_patch_roundtrip_amended emptyStore 3 (Or.inl rfl) rfl

/-- C6 counterexample: `set_content(5, None)` followed by `get_content(5)`
returns the empty dict, not `None` — the source stores `{}` for a `None`
payload (`payload = deepcopy(content) if content is not None else {}`), so
the round-trip claim is false at the tree `None`. -/
theorem c6_counterexample :
    get_content (set_content emptyStore 5 Json.null) 5 = Json.obj []
  ∧ Json.obj [] ≠ Json.null :=
  ⟨rfl, fun h2 => Json.noConfusion h2⟩

/-- C6 amended: `set_content` then `get_content` returns the stored tree for
every tree other than `None`, while a `None` payload is stored as the empty
dict (so `get_content` then returns the empty dict); `delete_content` then
`get_content` returns the empty dict; `get_content` of an absent document
returns the empty dict (no error state exists); `delete_content` of an
absent document leaves the table pointwise unchanged. -/
theorem c6_store_contract_amended :
    (∀ (st : Store) (document_id : Int) (T : Json), T ≠ Json.null →
        get_content (set_content st document_id T) document_id = T)
  ∧ (∀ (st : Store) (document_id : Int),
        get_content (set_content st document_id Json.null) document_id = Json.obj [])
  ∧ (∀ (st : Store) (document_id : Int),
        get_content (delete_content st document_id) document_id = Json.obj [])
  ∧ (∀ (st : Store) (document_id : Int), st document_id = none →
        get_content st document_id = Json.obj [])
  ∧ (∀ (st : Store) (document_id : Int), st document_id = none →
        ∀ i, delete_content st document_id i = st i) := by
  refine ⟨?_, ?_, ?_, ?_, ?_⟩
  · intro st document_id T hT
    cases T with
    | null => exact absurd rfl hT
    | bool b => simp [get_content, set_content]
    | num n2 => simp [get_content, set_content]
    | str s => simp [get_content, set_content]
    | arr xs => simp [get_content, set_content]
    | obj kvs => simp [get_content, set_content]
  · intro st document_id
    simp [get_content, set_content]
  · intro st document_id
    simp [get_content, delete_content]
  · intro st document_id h
    unfold get_content
    rw [h]
  · intro st document_id h i
    unfold delete_content
    by_cases hi : i = document_id
    · subst hi
      rw [if_pos rfl, h]
    · rw [if_neg hi]

theorem c6_witness_amended :
    get_content (set_content emptyStore 4 (Json.obj [("a", Json.null)])) 4
      = Json.obj [("a", Json.null)]
  ∧ get_content (set_content emptyStore 4 Json.null) 4 = Json.obj []
  ∧ get_content (delete_content emptyStore 4) 4 = Json.obj []
  ∧ get_content emptyStore 4 = Json.obj []
  ∧ ∀ i, delete_content emptyStore 4 i = emptyStore i :=
  ⟨c6_store_contract_amended.1 emptyStore 4 _ (fun h2 => Json.noConfusion h2),
   c6_store_contract_amended.2.1 emptyStore 4,
   c6_store_contract_amended.2.2.1 emptyStore 4,
   c6_store_contract_amended.2.2.2.1 emptyStore 4 rfl,
   c6_store_contract_amended.2.2.2.2 emptyStore 4 rfl⟩

/-- Scenario A stored document: document 1 holds
`{"type":"doc","content":[{"type":"paragraph"}]}`. -/
def scenarioA_store : Store :=
  fun i =>
    if i = 1 then
      some (Json.obj [("type", Json.str "doc"),
        ("content", Json.arr [Json.obj [("type", Json.str "paragraph")]])])
    else none

/-- C7: scenario A — on the stored document
`{"type":"doc","content":[{"type":"paragraph"}]}`, the single add operation
at `/content/0/content/0/text` with value "hi" succeeds (normalization first
materializes the paragraph's content as `[{type:"text",text:""}]`) and
yields the expected tree. -/
theorem c7_scenarioA :
    (patch_content scenarioA_store 1
        [PatchOp.add "/content/0/content/0/text" (Json.str "hi")]).2
      = Except.ok (Json.obj [("type", Json.str "doc"),
          ("content", Json.arr [Json.obj [("type", Json.str "paragraph"),
            ("content", Json.arr [Json.obj [("type", Json.str "text"),
              ("text", Json.str "hi")]])]])]) := rfl

/-- C8: normalization frame — on any dict node, normalization preserves the
key list (appending `content` at the end exactly when it is synthesized),
leaves the value of every member other than `content` unchanged, and maps an
existing `content` list elementwise (same length, same order, each element
normalized in place). -/
theorem c8_normalization_frame (kvs : List (String × Json)) :
    ensure_tiptap_content (Json.obj kvs) = Json.obj (synthContent (ensureEntries kvs))
  ∧ ((synthContent (ensureEntries kvs)).map Prod.fst
      = kvs.map Prod.fst ++
        (if nodeTypeOf kvs ∈ TIPTAP_NODES_WITH_CONTENT
            ∧ (lookupJson kvs "content").isNone
         then ["content"] else []))
  ∧ (∀ k, k ≠ "content" →
      lookupJson (synthContent (ensureEntries kvs)) k = lookupJson kvs k)
  ∧ (∀ xs, lookupJson kvs "content" = some (Json.arr xs) →
      lookupJson (synthContent (ensureEntries kvs)) "content"
        = some (Json.arr (xs.map ensure_tiptap_content))
      ∧ (xs.map ensure_tiptap_content).length = xs.length) := by
  refine ⟨ensure_obj kvs, ?_, ?_, ?_⟩
  · by_cases hc : nodeTypeOf kvs ∈ TIPTAP_NODES_WITH_CONTENT
        ∧ (lookupJson kvs "content").isNone
    · have hcE := (synth_cond_transfer kvs).mpr hc
      have hnoneE : lookupJson (ensureEntries kvs) "content" = none :=
        Option.isNone_iff_eq_none.mp hcE.2
      unfold synthContent
      rw [if_pos hcE, if_pos hc, setKey_of_lookup_none _ _ _ hnoneE, List.map_append,
        ensureEntries_map_fst]
      rfl
    · have hcE : ¬(nodeTypeOf (ensureEntries kvs) ∈ TIPTAP_NODES_WITH_CONTENT
          ∧ (lookupJson (ensureEntries kvs) "content").isNone) :=
        fun hh => hc ((synth_cond_transfer kvs).mp hh)
      unfold synthContent
      rw [if_neg hcE, if_neg hc, ensureEntries_map_fst, List.append_nil]
  · intro k hk
    rw [lookup_synthContent_ne _ k hk, lookup_ensureEntries_ne _ k hk]
  · intro xs hxs
    have hpres : (lookupJson (ensureEntries kvs) "content").isSome = true := by
      rw [lookup_ensureEntries_content, hxs]
      rfl
    rw [synthContent_of_content_present _ hpres, lookup_ensureEntries_content, hxs]
    refine ⟨?_, by rw [List.length_map]⟩
    simp [ensureContentValue, ensureList_eq_map]

theorem c8_witness :
    lookupJson
        (synthContent (ensureEntries [("type", Json.str "doc"),
          ("content", Json.arr [Json.obj [("type", Json.str "paragraph")]]),
          ("attrs", Json.num 3)])) "attrs"
      = some (Json.num 3)
  ∧ lookupJson
        (synthContent (ensureEntries [("type", Json.str "doc"),
          ("content", Json.arr [Json.obj [("type", Json.str "paragraph")]]),
          ("attrs", Json.num 3)])) "content"
      = some (Json.arr [Json.obj [("type", Json.str "paragraph"),
          ("content", Json.arr [Json.obj [("type", Json.str "text"),
            ("text", Json.str "")]])]]) :=
  ⟨(c8_normalization_frame [("type", Json.str "doc"),
      ("content", Json.arr [Json.obj [("type", Json.str "paragraph")]]),
      ("attrs", Json.num 3)]).2.2.1 "attrs" (by decide),
   ((c8_normalization_frame [("type", Json.str "doc"),
      ("content", Json.arr [Json.obj [("type", Json.str "paragraph")]]),
      ("attrs", Json.num 3)]).2.2.2 [Json.obj [("type", Json.str "paragraph")]] rfl).1⟩

/-- C9 counterexample: normalization is not total — on the dict
`{"type": ["x"]}` the source raises `TypeError` (`["x"] in frozenset(...)`
hashes an unhashable value), rendered as `none` by the checked embedding, so
the claim that normalize never raises on any JSON-like input is false. -/
theorem c9_counterexample :
    ensure_tiptap_content_checked (Json.obj [("type", Json.arr [Json.str "x"])])
      = none := rfl

/-- C9 amended: normalization terminates and returns a value unchanged on
every non-dict input (`None`, booleans, numbers, strings, lists), and
whenever it returns on any input the result is the normalized tree computed
by `ensure_tiptap_content`; but it raises `TypeError` whenever some
content-reachable node's `type` member is a truthy unhashable value (a
non-empty list or dict), so it is not total over all JSON-like inputs. -/
theorem c9_normalize_total_amended :
    (ensure_tiptap_content_checked Json.null = some Json.null)
  ∧ (∀ b, ensure_tiptap_content_checked (Json.bool b) = some (Json.bool b))
  ∧ (∀ n, ensure_tiptap_content_checked (Json.num n) = some (Json.num n))
  ∧ (∀ s, ensure_tiptap_content_checked (Json.str s) = some (Json.str s))
  ∧ (∀ xs, ensure_tiptap_content_checked (Json.arr xs) = some (Json.arr xs))
  ∧ (∀ j r, ensure_tiptap_content_checked j = some r → r = ensure_tiptap_content j)
  ∧ (∀ t kvs, SubNode t (Json.obj kvs) → typeIsUnhashable kvs = true →
        ensure_tiptap_content_checked t = none) :=
  ⟨rfl, fun _ => rfl, fun _ => rfl, fun _ => rfl, fun _ => rfl,
   fun j r h => ensure_checked_sound j r h,
   fun _ _ h hu => checked_none_of_subnode_none h (checked_none_of_unhashable hu)⟩

theorem c9_witness_amended :
    ensure_tiptap_content_checked (Json.obj [("type", Json.arr [Json.str "x"])])
        = none
  ∧ Json.obj [] = ensure_tiptap_content (Json.obj []) :=
  ⟨c9_normalize_total_amended.2.2.2.2.2.2
      (Json.obj [("type", Json.arr [Json.str "x"])])
      [("type", Json.arr [Json.str "x"])] SubNode.refl rfl,
   c9_normalize_total_amended.2.2.2.2.2.1 (Json.obj []) (Json.obj []) rfl⟩

/-- C10: a container-typed node whose `content` member is not a sequence
keeps that member exactly as it is under normalization — not replaced, not
recursed into — while a sequence-valued `content` member is exactly what
triggers the elementwise recursive normalization: whenever the program
returns on a node with a sequence `content`, the result's `content` is the
input sequence with every element normalized in place. -/
theorem c10_non_list_content_untouched :
    (∀ kvs v, nodeTypeOf kvs ∈ TIPTAP_NODES_WITH_CONTENT →
        lookupJson kvs "content" = some v → (∀ xs, v ≠ Json.arr xs) →
        ∃ kvs2, ensure_tiptap_content (Json.obj kvs) = Json.obj kvs2
          ∧ lookupJson kvs2 "content" = some v)
  ∧ (∀ kvs xs r, lookupJson kvs "content" = some (Json.arr xs) →
        ensure_tiptap_content_checked (Json.obj kvs) = some r →
        ∃ kvs2, r = Json.obj kvs2
          ∧ lookupJson kvs2 "content"
              = some (Json.arr (xs.map ensure_tiptap_content))) := by
  constructor
  · intro kvs v _ hlook hnarr
    refine ⟨synthContent (ensureEntries kvs), ensure_obj kvs, ?_⟩
    have hpres : (lookupJson (ensureEntries kvs) "content").isSome = true := by
      rw [lookup_ensureEntries_content, hlook]
      rfl
    rw [synthContent_of_content_present _ hpres, lookup_ensureEntries_content, hlook]
    simp [ensureContentValue_of_not_arr hnarr]
  · intro kvs xs r hlook hr
    have hre : r = ensure_tiptap_content (Json.obj kvs) := ensure_checked_sound _ r hr
    subst hre
    refine ⟨synthContent (ensureEntries kvs), ensure_obj kvs, ?_⟩
    have hpres : (lookupJson (ensureEntries kvs) "content").isSome = true := by
      rw [lookup_ensureEntries_content, hlook]
      rfl
    rw [synthContent_of_content_present _ hpres, lookup_ensureEntries_content, hlook]
    simp [ensureContentValue, ensureList_eq_map]

theorem c10_witness :
    (∃ kvs2, ensure_tiptap_content
          (Json.obj [("type", Json.str "doc"), ("content", Json.str "nope")])
        = Json.obj kvs2
      ∧ lookupJson kvs2 "content" = some (Json.str "nope"))
  ∧ (∃ kvs2, Json.obj [("type", Json.str "doc"),
          ("content", Json.arr [Json.obj [("type", Json.str "paragraph"),
            ("content", Json.arr [Json.obj [("type", Json.str "text"),
              ("text", Json.str "")]])]])]
        = Json.obj kvs2
      ∧ lookupJson kvs2 "content"
          = some (Json.arr ([Json.obj [("type", Json.str "paragraph")]].map
              ensure_tiptap_content))) :=
  ⟨c10_non_list_content_untouched.1
      [("type", Json.str "doc"), ("content", Json.str "nope")]
      (Json.str "nope") (by decide) rfl (fun xs h2 => Json.noConfusion h2),
   c10_non_list_content_untouched.2
      [("type", Json.str "doc"),
        ("content", Json.arr [Json.obj [("type", Json.str "paragraph")]])]
      [Json.obj [("type", Json.str "paragraph")]]
      (Json.obj [("type", Json.str "doc"),
        ("content", Json.arr [Json.obj [("type", Json.str "paragraph"),
          ("content", Json.arr [Json.obj [("type", Json.str "text"),
            ("text", Json.str "")]])]])])
      rfl rfl⟩

end DipStudio
